import Mathlib

/-!
# speedtest: the command-line driver (`speedtest.go`)

A shallow embedding of `runTest` and of the `app.Action` closure of `main`.

* Go `float64` values are modelled exactly (`F64`): a finite value is a sign, a
  mantissa and a binary exponent; multiplication rounds to nearest, ties to
  even, as IEEE-754 binary64 does.
* The functions of the packages `sthttp`, `tests` and `print` are not part of
  `speedtest.go`; `runTest` receives them in an `Env`.  A call that does not
  return (the callee stops the process) is the `Except.error` case.
* What the program does is recorded as a trace of `Event`s plus an `Outcome`.
-/

namespace Speedtest

/-! ## Go `float64` -/

/-- A Go `float64`: the finite value `(-1)^neg * mant * 2^exp`, an infinity or NaN. -/
inductive F64 where
  | finite (neg : Bool) (mant : Nat) (exp : Int)
  | inf (neg : Bool)
  | nan
  deriving DecidableEq, Repr

namespace F64

/-- The zero value of a Go `float64` variable (`var x float64`). -/
def zero : F64 := .finite false 0 0

/-- The float64 of a small natural number constant (exact below `2^53`). -/
def ofNat (n : Nat) : F64 := .finite false n 0

/-- A finite value in binary64 range: at most 53 mantissa bits and an exponent
between the smallest subnormal and the largest normal one. -/
def wf : F64 → Prop
  | .finite _ m e => m < 2 ^ 53 ∧ -1074 ≤ e ∧ e ≤ 971
  | _ => True

instance (x : F64) : Decidable x.wf := by
  cases x <;> unfold wf <;> infer_instance

/-- The exact value of a finite float64 (0 for infinities and NaN). -/
def toRat : F64 → ℚ
  | .finite neg m e => (if neg then -1 else 1) * (m : ℚ) * (2 : ℚ) ^ e
  | _ => 0

/-- The number of binary digits of `m`, computed with `fuel` halvings. -/
def bitLenAux : Nat → Nat → Nat
  | 0, _ => 0
  | fuel + 1, m => if m = 0 then 0 else bitLenAux fuel (m / 2) + 1

/-- The number of binary digits of `m` (0 for 0). -/
def bitLen (m : Nat) : Nat := bitLenAux m m

/-- Round the exact value `(-1)^neg * m * 2^e` to binary64: to nearest, ties to
even; gradual underflow below `2^-1022`; overflow gives an infinity. -/
def round (neg : Bool) (m : Nat) (e : Int) : F64 :=
  if m = 0 then .finite neg 0 0 else
  let bits : Int := (bitLen m : Int)
  let s : Int := max (bits - 53) (-1074 - e)
  if s ≤ 0 then
    if e + s > 971 then .inf neg else .finite neg (m * 2 ^ (-s).toNat) (e + s)
  else
    let k := s.toNat
    let q := m / 2 ^ k
    let r := m % 2 ^ k
    let half := 2 ^ (k - 1)
    let q1 := if r > half ∨ (r = half ∧ q % 2 = 1) then q + 1 else q
    let q2 := if q1 = 2 ^ 53 then 2 ^ 52 else q1
    let e2 := if q1 = 2 ^ 53 then e + s + 1 else e + s
    if e2 > 971 then .inf neg else .finite neg q2 e2

/-- Go `x * y` on float64. -/
def mul : F64 → F64 → F64
  | .nan, _ => .nan
  | _, .nan => .nan
  | .inf a, .inf b => .inf (xor a b)
  | .inf a, .finite b m _ => if m = 0 then .nan else .inf (xor a b)
  | .finite a m _, .inf b => if m = 0 then .nan else .inf (xor a b)
  | .finite a m e, .finite b n f => round (xor a b) (m * n) (e + f)

/-- Go `x < y` on float64 (false as soon as one side is NaN). -/
def lt : F64 → F64 → Bool
  | .nan, _ => false
  | _, .nan => false
  | .inf a, .inf b => a && !b
  | .inf a, .finite _ _ _ => a
  | .finite _ _ _, .inf b => !b
  | .finite a m e, .finite b n f =>
    let lo := min e f
    let x : Int := (if a then -1 else 1) * ((m * 2 ^ (e - lo).toNat : Nat) : Int)
    let y : Int := (if b then -1 else 1) * ((n * 2 ^ (f - lo).toNat : Nat) : Int)
    decide (x < y)

/-- The integer part of a finite value, truncated toward zero. -/
def trunc : F64 → Option Int
  | .finite neg m e =>
    let a : Nat := if 0 ≤ e then m * 2 ^ e.toNat else m / 2 ^ (-e).toNat
    some (if neg then -(a : Int) else (a : Int))
  | _ => none

end F64

/-- What the Go implementation fixes about `int`: its width, and the value of a
float-to-int conversion whose operand `int` cannot represent (the language
leaves that value implementation-dependent). -/
structure GoImpl where
  intBits : Nat
  convOutOfRange : F64 → Int

/-- Go `int(x)` for a float64 `x`: the fraction is discarded (truncation toward
zero) when the result fits `int`. -/
def F64.toInt (impl : GoImpl) (x : F64) : Int :=
  match x.trunc with
  | some v =>
    if -(2 : Int) ^ (impl.intBits - 1) ≤ v ∧ v < (2 : Int) ^ (impl.intBits - 1) then v
    else impl.convOutOfRange x
  | none => impl.convOutOfRange x

/-! ## `fmt` verbs used by `runTest` -/

/-- The value `m * 2^e * 100` rounded to the nearest integer, ties to even: the
hundredths printed by `%.2f`. -/
def hundredths (m : Nat) (e : Int) : Nat :=
  if 0 ≤ e then m * 2 ^ e.toNat * 100 else
  let d := 2 ^ (-e).toNat
  let q := m * 100 / d
  let r := m * 100 % d
  if 2 * r > d ∨ (2 * r = d ∧ q % 2 = 1) then q + 1 else q

/-- Two decimal digits. -/
def twoDigits (n : Nat) : String :=
  if n < 10 then "0" ++ toString n else toString n

/-- The verb `%3.2f`: two decimals, minimum width 3 (every output already has
three characters or more, so nothing is ever padded). -/
def fmtF (x : F64) : String :=
  match x with
  | .nan => "NaN"
  | .inf false => "+Inf"
  | .inf true => "-Inf"
  | .finite neg m e =>
    let c := hundredths m e
    (if neg then "-" else "") ++ toString (c / 100) ++ "." ++ twoDigits (c % 100)

/-- The verb `%d` on an `int`. -/
def fmtD (i : Int) : String := toString i

/-! ## Data of the imported packages -/

/-- Modelled from the spec: the error kinds of section 7 (they are raised inside
the packages `sthttp` and `tests`, whose code is not in `speedtest.go`). -/
inductive Err where
  | InvalidParameter
  | NoReachableServer
  | TransferFailed
  | ServerNotFound
  | NoServersAvailable
  deriving DecidableEq, Repr

/-- Modelled from the spec: the Coordinate of section 3 (the type is declared in
package `sthttp`). -/
structure Coordinate where
  Lat : F64
  Lon : F64
  deriving DecidableEq, Repr

/-- Modelled from the spec: the Server record of section 3 (the type
`sthttp.Server` is declared in package `sthttp`): identifier, display name,
location label, coordinate, endpoint and the mutable `Latency` in ms. -/
structure Server where
  ID : String
  Name : String
  Location : String
  Coord : Coordinate
  URL : String
  Latency : F64
  deriving DecidableEq, Repr

/-- The flags of one invocation as `cli.Context` returns them (`c.String`,
`c.Bool`, `c.Int`). -/
structure Context where
  algo : String
  debug : Bool
  list : Bool
  ping : Bool
  quiet : Bool
  report : Bool
  downloadonly : Bool
  uploadonly : Bool
  reportchar : String
  server : String
  numclosest : Int
  numlatency : Int
  deriving DecidableEq, Repr

/-- The package-level variables `speedtest.go` reads and writes:
`debug.DEBUG`, `debug.QUIET`, `debug.REPORT`, `settings.ALGOTYPE`,
`settings.REPORTCHAR`, `settings.NUMCLOSEST`, `settings.NUMLATENCYTESTS`. -/
structure Globals where
  DEBUG : Bool
  QUIET : Bool
  REPORT : Bool
  ALGOTYPE : String
  REPORTCHAR : String
  NUMCLOSEST : Int
  NUMLATENCYTESTS : Int
  deriving DecidableEq, Repr

/-- The imported functions `runTest` calls, as they behave under the settings in
force during the run.  `Except.error` is a call that does not return. -/
structure Env where
  GetServers : List Server
  FindServer : String → List Server → Except Err Server
  GetLatency : Server → Except Err F64
  GetClosestServers : List Server → List Server
  GetFastestServer : List Server → Except Err Server
  DownloadTest : Server → Except Err F64
  UploadTest : Server → Except Err F64
  showServer : Server → String
  impl : GoImpl

/-- One observable step of the program: a call of an imported function or a
write to standard output. -/
inductive Event where
  | getConfig
  | environmentReport
  | log (msg : String)
  | getServers
  | findServer (name : String) (all : List Server)
  | getLatency (s : Server)
  | getClosestServers (all : List Server)
  | getFastestServer (cands : List Server)
  | printServer (s : Server)
  | printServerReport (s : Server)
  | downloadTest (s : Server)
  | uploadTest (s : Server)
  | listServers
  | printf (text : String)
  deriving DecidableEq, Repr

/-- How a run ends: the function returns, `os.Exit(code)` is called, or an
imported function did not return (failure kind `e`). -/
inductive Outcome where
  | returned
  | exit (code : Nat)
  | failed (e : Err)
  deriving DecidableEq, Repr

/-- A run: the events in order and how it ended. -/
structure Run where
  trace : List Event
  outcome : Outcome
  deriving DecidableEq, Repr

/-- The events `es` followed by the run `r`. -/
def Run.after (es : List Event) (r : Run) : Run :=
  ⟨es ++ r.trace, r.outcome⟩

/-- The statements guarded by `if debug.DEBUG`. -/
def whenDebug (g : Globals) (es : List Event) : List Event :=
  if g.DEBUG then es else []

/-! ## `runTest` -/

/-- Lines 29-64 of `runTest`: the events up to the choice of `testServer`, and
the chosen server (or the failure of the call that did not return). -/
def selectServer (env : Env) (g : Globals) (c : Context) :
    List Event × Except Err Server :=
  let pre : List Event :=
    [Event.getConfig] ++ whenDebug g [Event.environmentReport]
      ++ whenDebug g [Event.log "Getting all servers for our test list"]
      ++ [Event.getServers]
  let allServers := env.GetServers
  if c.server ≠ "" then
    let pre1 := pre ++ whenDebug g
      [Event.log ("Server \x27" ++ c.server ++ "\x27 specified, getting info...")]
      ++ [Event.findServer c.server allServers]
    match env.FindServer c.server allServers with
    | .error e => (pre1, .error e)
    | .ok found =>
      match env.GetLatency found with
      | .error e => (pre1 ++ [Event.getLatency found], .error e)
      | .ok l =>
        let testServer := { found with Latency := l }
        (pre1 ++ [Event.getLatency found,
            Event.printf ("Selected server: " ++ env.showServer testServer ++ "\n")],
          .ok testServer)
  else
    let closestServers := env.GetClosestServers allServers
    let pre1 := pre ++ whenDebug g [Event.log "Getting closest servers..."]
      ++ [Event.getClosestServers allServers]
      ++ whenDebug g [Event.log "Getting the fastests of our closest servers..."]
      ++ [Event.getFastestServer closestServers]
    match env.GetFastestServer closestServers with
    | .error e => (pre1, .error e)
    | .ok testServer => (pre1, .ok testServer)

/-- Lines 67-71: `print.Server` or `print.ServerReport`. -/
def serverHeader (g : Globals) (testServer : Server) : Event :=
  if !g.REPORT then Event.printServer testServer else Event.printServerReport testServer

/-- Lines 75-87: the line of the ping-only mode. -/
def pingLine (g : Globals) (c : Context) (testServer : Server) : String :=
  if c.report then
    if g.ALGOTYPE = "max" then fmtF testServer.Latency ++ " (Lowest)\n"
    else fmtF testServer.Latency ++ " (Avg)\n"
  else
    if g.ALGOTYPE = "max" then "Ping (Lowest): " ++ fmtF testServer.Latency ++ " ms\n"
    else "Ping (Avg): " ++ fmtF testServer.Latency ++ " ms\n"

/-- Lines 91-101: the throughput tests that are run, and `(dmbps, umbps)`. -/
def measure (env : Env) (c : Context) (testServer : Server) :
    List Event × Except Err (F64 × F64) :=
  if c.downloadonly then
    match env.DownloadTest testServer with
    | .error e => ([Event.downloadTest testServer], .error e)
    | .ok d => ([Event.downloadTest testServer], .ok (d, F64.zero))
  else if c.uploadonly then
    match env.UploadTest testServer with
    | .error e => ([Event.uploadTest testServer], .error e)
    | .ok u => ([Event.uploadTest testServer], .ok (F64.zero, u))
  else
    match env.DownloadTest testServer with
    | .error e => ([Event.downloadTest testServer], .error e)
    | .ok d =>
      match env.UploadTest testServer with
      | .error e => ([Event.downloadTest testServer, Event.uploadTest testServer], .error e)
      | .ok u => ([Event.downloadTest testServer, Event.uploadTest testServer], .ok (d, u))

/-- Lines 110-112, one direction: `dkbps := dmbps * 1000` and then `int(dkbps)`. -/
def kbps (impl : GoImpl) (mbps : F64) : Int :=
  let dkbps := F64.mul mbps (F64.ofNat 1000)
  F64.toInt impl dkbps

/-- Lines 110-112: the line of the reporting mode. -/
def reportLine (env : Env) (g : Globals) (latency dmbps umbps : F64) : String :=
  fmtF latency ++ g.REPORTCHAR ++ fmtD (kbps env.impl dmbps)
    ++ g.REPORTCHAR ++ fmtD (kbps env.impl umbps) ++ "\n"

/-- Lines 104-108: the human-readable line of a full test. -/
def humanLine (g : Globals) (latency dmbps umbps : F64) : String :=
  if g.ALGOTYPE = "max" then
    "Ping (Lowest): " ++ fmtF latency ++ " ms | Download (Max): " ++ fmtF dmbps
      ++ " Mbps | Upload (Max): " ++ fmtF umbps ++ " Mbps\n"
  else
    "Ping (Avg): " ++ fmtF latency ++ " ms | Download (Avg): " ++ fmtF dmbps
      ++ " Mbps | Upload (Avg): " ++ fmtF umbps ++ " Mbps\n"

/-- Lines 103-113: the result line of a full test. -/
def resultLine (env : Env) (g : Globals) (testServer : Server) (dmbps umbps : F64) : String :=
  if !g.REPORT then humanLine g testServer.Latency dmbps umbps
  else reportLine env g testServer.Latency dmbps umbps

/-- Lines 66-114: what `runTest` does once `testServer` is chosen. -/
def afterSelect (env : Env) (g : Globals) (c : Context) (testServer : Server) : Run :=
  if c.ping then
    ⟨[serverHeader g testServer, Event.printf (pingLine g c testServer)], Outcome.exit 0⟩
  else
    match measure env c testServer with
    | (es, .error e) => ⟨serverHeader g testServer :: es, Outcome.failed e⟩
    | (es, .ok (dmbps, umbps)) =>
      ⟨serverHeader g testServer :: es
          ++ [Event.printf (resultLine env g testServer dmbps umbps)],
        Outcome.returned⟩

/-- The function `runTest(c)`. -/
def runTest (env : Env) (g : Globals) (c : Context) : Run :=
  match selectServer env g c with
  | (es, .error e) => ⟨es, Outcome.failed e⟩
  | (es, .ok testServer) => Run.after es (afterSelect env g c testServer)

/-! ## `main`: the `app.Action` closure -/

/-- A run of the action: the package-level variables it leaves, and the run. -/
structure MainRun where
  globals : Globals
  run : Run

/-- Lines 189-197: the switches `debug`, `quiet`, `report`. -/
def setSwitches (g : Globals) (c : Context) : Globals :=
  let g1 := if c.debug then { g with DEBUG := true } else g
  let g2 := if c.quiet then { g1 with QUIET := true } else g1
  if c.report then { g2 with REPORT := true } else g2

/-- Lines 208-212: `numclosest`, `numlatency`, `reportchar`. -/
def setNumbers (g : Globals) (c : Context) : Globals :=
  let g1 := { g with NUMCLOSEST := c.numclosest, NUMLATENCYTESTS := c.numlatency }
  if c.reportchar ≠ "" then { g1 with REPORTCHAR := c.reportchar } else g1

/-- Lines 214-221: the one-shot list, or the test. -/
def listOrTest (env : Globals → Env) (g : Globals) (c : Context) : MainRun :=
  if c.list then ⟨g, ⟨[Event.listServers], Outcome.exit 0⟩⟩
  else ⟨g, runTest (env g) g c⟩

/-- The closure assigned to `app.Action` (lines 187-222).  The imported
functions read the package-level variables, so `env` depends on them. -/
def action (env : Globals → Env) (g : Globals) (c : Context) : MainRun :=
  let g1 := setSwitches g c
  if c.algo ≠ "" then
    if c.algo = "max" then
      listOrTest env (setNumbers { g1 with ALGOTYPE := "max" } c) c
    else if c.algo = "avg" then
      listOrTest env (setNumbers { g1 with ALGOTYPE := "avg" } c) c
    else
      ⟨g1, ⟨[Event.printf ("** Invalid algorithm \x27" ++ c.algo ++ "\x27\n")], Outcome.exit 1⟩⟩
  else
    listOrTest env (setNumbers g1 c) c

/-! ## The selection functions of section 4.4, which `speedtest.go` imports -/

/-- Modelled from the spec: the explicit-mode lookup of section 4.4
(`tests.FindServer`, whose body is not in `speedtest.go`): the first entry in
catalog order that matches the name, and `ServerNotFound` when none does.
`matchName` is the spec's "exact or case-insensitive substring match". -/
def FindServer (matchName : String → Server → Bool) (name : String)
    (all : List Server) : Except Err Server :=
  match all.find? (matchName name) with
  | some s => .ok s
  | none => .error Err.ServerNotFound

/-- Modelled from the spec: the Latency Prober run against each candidate
(section 4.4, automatic mode); every probed server gets its `Latency`, and a
probe that fails is terminal for the selection (section 7). -/
def probeAll (probe : Server → Except Err F64) : List Server → Except Err (List Server)
  | [] => .ok []
  | s :: rest =>
    match probe s with
    | .error e => .error e
    | .ok l =>
      match probeAll probe rest with
      | .error e => .error e
      | .ok rest1 => .ok ({ s with Latency := l } :: rest1)

/-- Modelled from the spec: the lowest latency wins, the first one on a tie. -/
def pickFastest : Server → List Server → Server
  | best, [] => best
  | best, s :: rest =>
    if F64.lt s.Latency best.Latency then pickFastest s rest else pickFastest best rest

/-- Modelled from the spec: the automatic-mode choice of section 4.4
(`sthttp.GetFastestServer`, whose body is not in `speedtest.go`):
`NoServersAvailable` on an empty candidate list, else probe every candidate and
return the one with the lowest latency. -/
def GetFastestServer (probe : Server → Except Err F64)
    (cands : List Server) : Except Err Server :=
  match cands with
  | [] => .error Err.NoServersAvailable
  | _ :: _ =>
    match probeAll probe cands with
    | .error e => .error e
    | .ok [] => .error Err.NoServersAvailable
    | .ok (p :: ps) => .ok (pickFastest p ps)

/-- The server's `Latency` is populated: it is the value the Latency Prober
returned for this server. -/
def populated (env : Env) (s : Server) : Prop :=
  ∃ s0 : Server, env.GetLatency s0 = .ok s.Latency ∧ s = { s0 with Latency := s.Latency }

/-! ## Kinds of events -/

/-- A call of `tests.DownloadTest`. -/
def Event.isDownloadTest : Event → Bool
  | .downloadTest _ => true
  | _ => false

/-- A call of `tests.UploadTest`. -/
def Event.isUploadTest : Event → Bool
  | .uploadTest _ => true
  | _ => false

/-- A call of `tests.FindServer`. -/
def Event.isFindServer : Event → Bool
  | .findServer _ _ => true
  | _ => false

/-- A call of `sthttp.GetLatency` made by `runTest` itself. -/
def Event.isGetLatency : Event → Bool
  | .getLatency _ => true
  | _ => false

/-- A call of `sthttp.GetClosestServers`. -/
def Event.isGetClosestServers : Event → Bool
  | .getClosestServers _ => true
  | _ => false

/-- A call of `sthttp.GetFastestServer`. -/
def Event.isGetFastestServer : Event → Bool
  | .getFastestServer _ => true
  | _ => false

/-- The server an event prints or tests, if it has one. -/
def Event.subject : Event → Option Server
  | .printServer s => some s
  | .printServerReport s => some s
  | .downloadTest s => some s
  | .uploadTest s => some s
  | _ => none

/-! ## Concrete values used to run the model -/

/-- A 64-bit Go implementation whose out-of-range conversion gives the smallest `int`. -/
def amd64 : GoImpl := ⟨64, fun _ => -9223372036854775808⟩

/-- The float64 nearest to 4.35. -/
def f4_35 : F64 := .finite false 4897664594765414 (-50)

/-- The float64 nearest to 5.9999. -/
def f5_9999 : F64 := .finite false 6755286851065060 (-50)

/-- The float64 6.0. -/
def f6 : F64 := .finite false 6755399441055744 (-50)

/-- The float64 23.5. -/
def f23_5 : F64 := .finite false 47 (-1)

/-- The float64 9.0. -/
def f9 : F64 := .finite false 9 0

/-- A catalog entry. -/
def srvA : Server := ⟨"1", "Alpha", "Ankara", ⟨F64.zero, F64.zero⟩, "http://a.example/", F64.zero⟩

/-- A second catalog entry. -/
def srvB : Server := ⟨"2", "Beta", "Bonn", ⟨F64.zero, F64.zero⟩, "http://b.example/", F64.zero⟩

/-- A prober: 23.5 ms for the first entry, 9 ms for every other one. -/
def demoProbe (s : Server) : Except Err F64 :=
  if s.ID = "1" then .ok f23_5 else .ok f9

/-- Name matching by identifier. -/
def demoMatch (name : String) (s : Server) : Bool := s.ID == name

/-- An environment built on the selection functions above. -/
def demoEnv : Env where
  GetServers := [srvA, srvB]
  FindServer := FindServer demoMatch
  GetLatency := demoProbe
  GetClosestServers := fun all => all.take 2
  GetFastestServer := GetFastestServer demoProbe
  DownloadTest := fun _ => .ok f4_35
  UploadTest := fun _ => .ok f5_9999
  showServer := fun s => s.Name
  impl := amd64

/-- Package-level variables: no debug, policy `max`, separator `|`. -/
def demoGlobals : Globals := ⟨false, false, false, "max", "|", 3, 5⟩

/-- The variables of a run in reporting mode. -/
def demoReport : Globals := { demoGlobals with REPORT := true }

/-- A command line with no flag set. -/
def demoContext : Context := ⟨"", false, false, false, false, false, false, false, "", "", 3, 5⟩

/-- A command line with both `downloadonly` and `uploadonly` set. -/
def bothOnly : Context := { demoContext with downloadonly := true, uploadonly := true }

/-- A command line that names the server with identifier 1, in reporting mode. -/
def explicitReport : Context := { demoContext with server := "1", report := true }

/-- A command line that names a server absent from the catalog. -/
def explicitAbsent : Context := { demoContext with server := "7" }

/-- A command line with the ping flag. -/
def pingOnly : Context := { demoContext with ping := true }

/-- A command line with only `uploadonly` set. -/
def uploadOnly : Context := { demoContext with uploadonly := true }

/-- The second catalog entry with the latency the prober gives it. -/
def probedB : Server := { srvB with Latency := f9 }

/-- The first catalog entry with the latency the prober gives it. -/
def probedA : Server := { srvA with Latency := f23_5 }

/-- The variables of a run under the policy `avg`. -/
def demoAvg : Globals := { demoGlobals with ALGOTYPE := "avg" }

/-- An event of the selection phase: neither a throughput test nor a server
printed through package `print`. -/
def Event.isQuiet (ev : Event) : Bool :=
  !ev.isDownloadTest && !ev.isUploadTest && ev.subject.isNone

/-- A `fmt.Printf` of `runTest` or of the action. -/
def Event.isPrintf : Event → Bool
  | .printf _ => true
  | _ => false

/-- An event that is none of the four selection calls. -/
def Event.isNotSelectionCall (ev : Event) : Bool :=
  !ev.isFindServer && !ev.isGetLatency && !ev.isGetClosestServers && !ev.isGetFastestServer

/-- A command line with an algorithm that does not exist. -/
def badAlgo : Context := { demoContext with algo := "min", list := true }

/-- A command line that asks for the policy `avg`. -/
def avgAlgo : Context := { demoContext with algo := "avg" }

/-- Lines 29-40: what `runTest` does before it looks at the server flag. -/
def preamble (g : Globals) : List Event :=
  [Event.getConfig] ++ whenDebug g [Event.environmentReport]
    ++ whenDebug g [Event.log "Getting all servers for our test list"]
    ++ [Event.getServers]

/-- Lines 43-48: the preamble and the call of `FindServer`. -/
def explicitLookup (env : Env) (g : Globals) (c : Context) : List Event :=
  preamble g ++ whenDebug g
      [Event.log ("Server \x27" ++ c.server ++ "\x27 specified, getting info...")]
    ++ [Event.findServer c.server env.GetServers]

/-- Lines 55-63: the preamble and the calls of the automatic mode. -/
def automaticCalls (env : Env) (g : Globals) : List Event :=
  preamble g ++ whenDebug g [Event.log "Getting closest servers..."]
    ++ [Event.getClosestServers env.GetServers]
    ++ whenDebug g [Event.log "Getting the fastests of our closest servers..."]
    ++ [Event.getFastestServer (env.GetClosestServers env.GetServers)]

/-! ## Lemmas about the model -/

theorem runTest_of_select {env : Env} {g : Globals} {c : Context} {es : List Event}
    {ts : Server} (h : selectServer env g c = (es, .ok ts)) :
    runTest env g c = Run.after es (afterSelect env g c ts) := by
  simp [runTest, h]

theorem selectServer_all (env : Env) (g : Globals) (c : Context) :
    (selectServer env g c).1.all Event.isQuiet = true := by
  unfold selectServer whenDebug
  by_cases hs : c.server = ""
  · simp only [hs, ne_eq, not_true_eq_false, if_false]
    cases env.GetFastestServer (env.GetClosestServers env.GetServers) <;>
      cases g.DEBUG <;>
      simp [Event.isQuiet, Event.isDownloadTest, Event.isUploadTest, Event.subject]
  · simp only [hs, ne_eq, not_false_eq_true, if_true]
    cases env.FindServer c.server env.GetServers with
    | error e =>
      cases g.DEBUG <;>
        simp [Event.isQuiet, Event.isDownloadTest, Event.isUploadTest, Event.subject]
    | ok found =>
      cases hl : env.GetLatency found <;> cases g.DEBUG <;>
        simp [hl, Event.isQuiet, Event.isDownloadTest, Event.isUploadTest, Event.subject]

/-- No event of the selection phase is a throughput test or prints a server
through package `print`. -/
theorem selectServer_events (env : Env) (g : Globals) (c : Context) :
    ∀ ev ∈ (selectServer env g c).1,
      ev.isDownloadTest = false ∧ ev.isUploadTest = false ∧ ev.subject = none := by
  intro ev hev
  have h := List.all_eq_true.mp (selectServer_all env g c) ev hev
  simpa [Event.isQuiet, and_assoc] using h

/-- With the ping flag the run is the selection, the server header and the ping line. -/
theorem runTest_ping {env : Env} {g : Globals} {c : Context} {es : List Event}
    {ts : Server} (hsel : selectServer env g c = (es, .ok ts)) (hping : c.ping = true) :
    runTest env g c
      = ⟨es ++ [serverHeader g ts, Event.printf (pingLine g c ts)], Outcome.exit 0⟩ := by
  rw [runTest_of_select hsel]
  simp [afterSelect, hping, Run.after]

/-- Without the ping flag, when the tests return, the run is the selection, the
server header, the tests and the result line. -/
theorem runTest_full {env : Env} {g : Globals} {c : Context} {es ms : List Event}
    {ts : Server} {d u : F64} (hsel : selectServer env g c = (es, .ok ts))
    (hping : c.ping = false) (hm : measure env c ts = (ms, .ok (d, u))) :
    runTest env g c
      = ⟨es ++ (serverHeader g ts :: ms ++ [Event.printf (resultLine env g ts d u)]),
          Outcome.returned⟩ := by
  rw [runTest_of_select hsel]
  simp [afterSelect, hping, hm, Run.after]

/-- Every event of a run is an event of the selection, the server header, a
throughput test of `measure`, or a `printf`. -/
theorem runTest_trace_mem {env : Env} {g : Globals} {c : Context} {es : List Event}
    {ts : Server} (hsel : selectServer env g c = (es, .ok ts)) :
    ∀ ev ∈ (runTest env g c).trace,
      ev ∈ es ∨ ev = serverHeader g ts ∨ (c.ping = false ∧ ev ∈ (measure env c ts).1)
        ∨ ∃ t, ev = Event.printf t := by
  intro ev hev
  rw [runTest_of_select hsel] at hev
  unfold afterSelect Run.after at hev
  cases hp : c.ping
  · rcases hm : measure env c ts with ⟨ms, r⟩
    cases r with
    | error e =>
      simp [hp, hm] at hev
      rcases hev with h | h | h
      · exact Or.inl h
      · exact Or.inr (Or.inl h)
      · exact Or.inr (Or.inr (Or.inl ⟨rfl, h⟩))
    | ok du =>
      simp [hp, hm] at hev
      rcases hev with h | h | h | h
      · exact Or.inl h
      · exact Or.inr (Or.inl h)
      · exact Or.inr (Or.inr (Or.inl ⟨rfl, h⟩))
      · exact Or.inr (Or.inr (Or.inr ⟨_, h⟩))
  · simp [hp] at hev
    rcases hev with h | h | h
    · exact Or.inl h
    · exact Or.inr (Or.inl h)
    · exact Or.inr (Or.inr (Or.inr ⟨_, h⟩))

theorem serverHeader_kind (g : Globals) (ts : Server) :
    (serverHeader g ts).isDownloadTest = false ∧ (serverHeader g ts).isUploadTest = false
      ∧ (serverHeader g ts).subject = some ts := by
  unfold serverHeader
  cases g.REPORT <;> simp [Event.isDownloadTest, Event.isUploadTest, Event.subject]

theorem kbps_zero (impl : GoImpl) : kbps impl F64.zero = 0 := by
  have h : F64.mul F64.zero (F64.ofNat 1000) = F64.finite false 0 0 := by decide
  unfold kbps
  simp only [h, F64.toInt, F64.trunc]
  have h1 : (0 : Int) < 2 ^ (impl.intBits - 1) := by positivity
  simp [h1]

theorem setSwitches_algo (g : Globals) (c : Context) :
    (setSwitches g c).ALGOTYPE = g.ALGOTYPE := by
  unfold setSwitches
  cases c.debug <;> cases c.quiet <;> cases c.report <;> rfl

theorem setNumbers_algo (g : Globals) (c : Context) :
    (setNumbers g c).ALGOTYPE = g.ALGOTYPE := by
  unfold setNumbers
  by_cases h : c.reportchar = "" <;> simp [h]

theorem listOrTest_globals (env : Globals → Env) (g : Globals) (c : Context) :
    (listOrTest env g c).globals = g := by
  unfold listOrTest
  cases c.list <;> rfl

theorem selectServer_find_error {env : Env} {g : Globals} {c : Context} {e : Err}
    (hs : c.server ≠ "") (hf : env.FindServer c.server env.GetServers = .error e) :
    selectServer env g c = (explicitLookup env g c, .error e) := by
  simp [selectServer, explicitLookup, preamble, hs, hf]

theorem selectServer_latency_error {env : Env} {g : Globals} {c : Context} {e : Err}
    {found : Server} (hs : c.server ≠ "")
    (hf : env.FindServer c.server env.GetServers = .ok found)
    (hl : env.GetLatency found = .error e) :
    selectServer env g c
      = (explicitLookup env g c ++ [Event.getLatency found], .error e) := by
  simp [selectServer, explicitLookup, preamble, hs, hf, hl]

theorem selectServer_explicit_ok {env : Env} {g : Globals} {c : Context} {l : F64}
    {found : Server} (hs : c.server ≠ "")
    (hf : env.FindServer c.server env.GetServers = .ok found)
    (hl : env.GetLatency found = .ok l) :
    selectServer env g c
      = (explicitLookup env g c ++ [Event.getLatency found,
            Event.printf ("Selected server: "
              ++ env.showServer { found with Latency := l } ++ "\n")],
          .ok { found with Latency := l }) := by
  simp [selectServer, explicitLookup, preamble, hs, hf, hl]

theorem selectServer_automatic {env : Env} {g : Globals} {c : Context}
    (hs : c.server = "") :
    selectServer env g c
      = (automaticCalls env g, env.GetFastestServer (env.GetClosestServers env.GetServers)) := by
  unfold selectServer automaticCalls preamble
  simp only [hs, ne_eq, not_true_eq_false, if_false]
  cases env.GetFastestServer (env.GetClosestServers env.GetServers) <;> rfl

theorem explicitLookup_all (env : Env) (g : Globals) (c : Context) :
    (explicitLookup env g c).all
      (fun ev => !ev.isGetClosestServers && !ev.isGetFastestServer && !ev.isGetLatency
        && !ev.isPrintf && ev.isQuiet) = true := by
  unfold explicitLookup preamble whenDebug
  cases g.DEBUG <;>
    simp [Event.isGetClosestServers, Event.isGetFastestServer, Event.isGetLatency,
      Event.isPrintf, Event.isQuiet, Event.isDownloadTest, Event.isUploadTest, Event.subject]

theorem automaticCalls_all (env : Env) (g : Globals) :
    (automaticCalls env g).all (fun ev => !ev.isFindServer && !ev.isGetLatency) = true := by
  unfold automaticCalls preamble whenDebug
  cases g.DEBUG <;> simp [Event.isFindServer, Event.isGetLatency]

/-- After the selection `runTest` makes none of the four selection calls. -/
theorem afterSelect_all (env : Env) (g : Globals) (c : Context) (ts : Server) :
    (afterSelect env g c ts).trace.all Event.isNotSelectionCall = true := by
  unfold afterSelect measure serverHeader
  cases c.ping <;> cases g.REPORT <;> cases c.downloadonly <;> cases c.uploadonly <;>
    cases env.DownloadTest ts <;> cases env.UploadTest ts <;>
    simp [Event.isNotSelectionCall, Event.isFindServer, Event.isGetLatency,
      Event.isGetClosestServers, Event.isGetFastestServer]

/-- The events after the selection that print or test a server do so on `ts`. -/
theorem afterSelect_subject (env : Env) (g : Globals) (c : Context) (ts : Server) :
    ∀ ev ∈ (afterSelect env g c ts).trace, ∀ s, ev.subject = some s → s = ts := by
  unfold afterSelect measure serverHeader
  cases c.ping <;> cases g.REPORT <;> cases c.downloadonly <;> cases c.uploadonly <;>
    cases env.DownloadTest ts <;> cases env.UploadTest ts <;>
    simp [Event.subject]

/-- The trace of a run is the trace of the selection, followed by events that
are none of the four selection calls. -/
theorem runTest_trace (env : Env) (g : Globals) (c : Context) :
    ∃ rest : List Event, (runTest env g c).trace = (selectServer env g c).1 ++ rest ∧
      rest.all Event.isNotSelectionCall = true := by
  rcases hsel : selectServer env g c with ⟨es, r⟩
  cases r with
  | error e => exact ⟨[], by simp [runTest, hsel], rfl⟩
  | ok ts =>
    exact ⟨(afterSelect env g c ts).trace, by simp [runTest, hsel, Run.after],
      afterSelect_all env g c ts⟩

theorem probeAll_mem (probe : Server → Except Err F64) :
    ∀ (cands ps : List Server), probeAll probe cands = .ok ps →
      ∀ p ∈ ps, ∃ s0 ∈ cands, probe s0 = .ok p.Latency ∧ p = { s0 with Latency := p.Latency } := by
  intro cands
  induction cands with
  | nil =>
    intro ps h p hp
    simp [probeAll] at h
    subst h
    simp at hp
  | cons s rest ih =>
    intro ps h p hp
    unfold probeAll at h
    cases hl : probe s with
    | error e => simp [hl] at h
    | ok l =>
      cases hr : probeAll probe rest with
      | error e => simp [hl, hr] at h
      | ok rest1 =>
        simp [hl, hr] at h
        subst h
        rcases List.mem_cons.mp hp with h1 | h1
        · subst h1
          exact ⟨s, List.mem_cons_self _ _, hl, rfl⟩
        · obtain ⟨s0, hs0, hp0, heq⟩ := ih rest1 hr p h1
          exact ⟨s0, List.mem_cons_of_mem _ hs0, hp0, heq⟩

theorem pickFastest_mem : ∀ (l : List Server) (best : Server),
    pickFastest best l = best ∨ pickFastest best l ∈ l := by
  intro l
  induction l with
  | nil => intro best; exact Or.inl rfl
  | cons s rest ih =>
    intro best
    unfold pickFastest
    split
    · rcases ih s with h | h
      · exact Or.inr (by rw [h]; exact List.mem_cons_self _ _)
      · exact Or.inr (List.mem_cons_of_mem _ h)
    · rcases ih best with h | h
      · exact Or.inl h
      · exact Or.inr (List.mem_cons_of_mem _ h)

/-- The server the automatic choice returns is a candidate carrying the latency
the prober returned for it. -/
theorem GetFastestServer_probed (probe : Server → Except Err F64) (cands : List Server)
    (ts : Server) (h : GetFastestServer probe cands = .ok ts) :
    ∃ s0 ∈ cands, probe s0 = .ok ts.Latency ∧ ts = { s0 with Latency := ts.Latency } := by
  unfold GetFastestServer at h
  cases cands with
  | nil => simp at h
  | cons c0 cs =>
    simp only at h
    cases hp : probeAll probe (c0 :: cs) with
    | error e => simp [hp] at h
    | ok ps =>
      cases ps with
      | nil => simp [hp] at h
      | cons p ps1 =>
        simp [hp] at h
        have hmem : ts ∈ p :: ps1 := by
          rw [← h]
          rcases pickFastest_mem ps1 p with h1 | h1
          · rw [h1]; exact List.mem_cons_self _ _
          · exact List.mem_cons_of_mem _ h1
        exact probeAll_mem probe (c0 :: cs) (p :: ps1) hp ts hmem

theorem bitLenAux_le : ∀ (fuel m k : Nat), m < 2 ^ k → F64.bitLenAux fuel m ≤ k := by
  intro fuel
  induction fuel with
  | zero => intro m k _; simp [F64.bitLenAux]
  | succ n ih =>
    intro m k h
    unfold F64.bitLenAux
    split
    · exact Nat.zero_le _
    · rename_i hm
      cases k with
      | zero => simp at h; exact absurd h hm
      | succ j =>
        have h2 : m / 2 < 2 ^ j := by
          rw [Nat.pow_succ] at h
          omega
        have := ih (m / 2) j h2
        omega

theorem bitLenAux_lt : ∀ (fuel m : Nat), m ≤ fuel → m < 2 ^ F64.bitLenAux fuel m := by
  intro fuel
  induction fuel with
  | zero => intro m h; simp [F64.bitLenAux]; omega
  | succ n ih =>
    intro m h
    unfold F64.bitLenAux
    split
    · rename_i hm; simp [hm]
    · rename_i hm
      have h2 : m / 2 ≤ n := by omega
      have := ih (m / 2) h2
      rw [Nat.pow_succ]
      omega

theorem bitLen_le (m k : Nat) (h : m < 2 ^ k) : F64.bitLen m ≤ k :=
  bitLenAux_le m m k h

theorem bitLen_lt (m : Nat) : m < 2 ^ F64.bitLen m :=
  bitLenAux_lt m m (Nat.le_refl m)

/-- Rounding a non-negative value gives a non-negative finite value or `+Inf`. -/
theorem round_false_cases (m : Nat) (e : Int) :
    F64.round false m e = F64.inf false ∨
      ∃ m1 e1, F64.round false m e = F64.finite false m1 e1 := by
  unfold F64.round
  simp only
  split_ifs <;> simp

/-- Truncation of a non-negative finite value is its floor. -/
theorem trunc_floor (m : Nat) (e : Int) :
    ∃ a : Nat, (F64.finite false m e).trunc = some (a : Int) ∧
      (a : ℚ) ≤ (m : ℚ) * (2 : ℚ) ^ e ∧ (m : ℚ) * (2 : ℚ) ^ e < (a : ℚ) + 1 := by
  by_cases he : 0 ≤ e
  · refine ⟨m * 2 ^ e.toNat, by simp [F64.trunc, he], ?_, ?_⟩
    · have : (2 : ℚ) ^ e = (2 : ℚ) ^ e.toNat := by
        rw [← zpow_natCast, Int.toNat_of_nonneg he]
      rw [this]; push_cast; exact le_refl _
    · have : (2 : ℚ) ^ e = (2 : ℚ) ^ e.toNat := by
        rw [← zpow_natCast, Int.toNat_of_nonneg he]
      rw [this]; push_cast; linarith
  · have hk : ((-e).toNat : Int) = -e := Int.toNat_of_nonneg (by omega)
    have hpow : (2 : ℚ) ^ e = ((2 : ℚ) ^ (-e).toNat)⁻¹ := by
      rw [← zpow_natCast, hk, zpow_neg, inv_inv]
    have hpos : (0 : ℚ) < (2 : ℚ) ^ (-e).toNat := by positivity
    refine ⟨m / 2 ^ (-e).toNat, by simp [F64.trunc, he], ?_, ?_⟩
    · rw [hpow, ← div_eq_mul_inv, le_div_iff₀ hpos]
      have := Nat.div_mul_le_self m (2 ^ (-e).toNat)
      exact_mod_cast this
    · rw [hpow, ← div_eq_mul_inv, div_lt_iff₀ hpos]
      have := Nat.lt_succ_self (m / 2 ^ (-e).toNat)
      have h2 : m < (m / 2 ^ (-e).toNat + 1) * 2 ^ (-e).toNat := by
        have h3 := Nat.div_add_mod m (2 ^ (-e).toNat)
        have h4 := Nat.mod_lt m (show 0 < 2 ^ (-e).toNat by positivity)
        nlinarith
      exact_mod_cast h2

/-- A value `n * 2^k * 2^e` with `n` below `2^53`, not below the subnormal
range, is rounded to itself (or overflows). -/
theorem round_exact (m n k : Nat) (e : Int) (hm : m = n * 2 ^ k) (hn : n < 2 ^ 53)
    (he : -1074 ≤ e) :
    F64.round false m e = F64.inf false ∨
      ∃ m1 e1, F64.round false m e = F64.finite false m1 e1 ∧
        (m1 : ℚ) * (2 : ℚ) ^ e1 = (m : ℚ) * (2 : ℚ) ^ e := by
  unfold F64.round
  by_cases h0 : m = 0
  · right
    exact ⟨0, 0, by simp [h0], by simp [h0]⟩
  · simp only [h0, if_false]
    by_cases hs : max ((F64.bitLen m : Int) - 53) (-1074 - e) ≤ 0
    · simp only [hs, if_true]
      split_ifs
      · exact Or.inl rfl
      · right
        refine ⟨_, _, rfl, ?_⟩
        generalize max ((F64.bitLen m : Int) - 53) (-1074 - e) = s at hs
        have hj : ((-s).toNat : Int) = -s := Int.toNat_of_nonneg (by omega)
        push_cast
        rw [mul_assoc, ← zpow_natCast, hj, ← zpow_add₀ (by norm_num : (2 : ℚ) ≠ 0)]
        congr 2
        ring
    · simp only [hs, if_false]
      have hs1 : max ((F64.bitLen m : Int) - 53) (-1074 - e) = (F64.bitLen m : Int) - 53 := by
        apply max_eq_left
        rw [not_le] at hs
        rcases le_max_iff.mp (le_of_lt hs) with h | h <;> omega
      rw [hs1] at hs ⊢
      have hbits : F64.bitLen m ≤ 53 + k := by
        apply bitLen_le
        rw [hm, Nat.pow_add]
        exact Nat.mul_lt_mul_of_pos_right hn (by positivity)
      obtain ⟨j, hj⟩ : ∃ j : Nat, F64.bitLen m = 53 + j + 1 := ⟨F64.bitLen m - 54, by omega⟩
      have hjk : j + 1 ≤ k := by omega
      have htn : ((F64.bitLen m : Int) - 53).toNat = j + 1 := by omega
      have hdvd : 2 ^ (j + 1) ∣ m := by
        rw [hm]
        exact Dvd.dvd.mul_left (Nat.pow_dvd_pow 2 hjk) n
      have hr : m % 2 ^ (j + 1) = 0 := Nat.mod_eq_zero_of_dvd hdvd
      have hhalf : (0 : Nat) < 2 ^ j := by positivity
      have hq : m / 2 ^ (j + 1) < 2 ^ 53 := by
        rw [Nat.div_lt_iff_lt_mul (by positivity), ← Nat.pow_add]
        have := bitLen_lt m
        rw [hj] at this
        exact this
      rw [htn]
      simp only [hr, Nat.add_sub_cancel]
      have hne : ¬ ((0 : Nat) > 2 ^ j ∨ (0 = 2 ^ j ∧ m / 2 ^ (j + 1) % 2 = 1)) := by
        omega
      simp only [hne, if_false, Nat.ne_of_lt hq]
      split_ifs
      · exact Or.inl rfl
      · right
        refine ⟨_, _, rfl, ?_⟩
        have hcast : ((F64.bitLen m : Int) - 53) = ((j + 1 : Nat) : Int) := by omega
        rw [hcast, zpow_add₀ (by norm_num : (2 : ℚ) ≠ 0), zpow_natCast]
        obtain ⟨q, hq1⟩ := hdvd
        have hdiv : m / 2 ^ (j + 1) = q := by
          rw [hq1]
          exact Nat.mul_div_cancel_left q (by positivity)
        have hmq : (m : ℚ) = (2 : ℚ) ^ (j + 1) * (q : ℚ) := by exact_mod_cast hq1
        rw [hdiv, hmq]
        ring

/-- The selection calls of a run: with a non-empty name a chosen server comes
from FindServer and GetLatency, FindServer is called and the automatic calls are
not; with the empty name the automatic calls are made and FindServer and
GetLatency are not. -/
theorem selection_calls (env : Env) (g : Globals) (c : Context) :
    (c.server ≠ "" →
      (∀ ts, (selectServer env g c).2 = .ok ts →
        ∃ found l, env.FindServer c.server env.GetServers = .ok found ∧
          env.GetLatency found = .ok l ∧ ts = { found with Latency := l }) ∧
      Event.findServer c.server env.GetServers ∈ (runTest env g c).trace ∧
      ∀ ev ∈ (runTest env g c).trace,
        ev.isGetClosestServers = false ∧ ev.isGetFastestServer = false) ∧
    (c.server = "" →
      (selectServer env g c).2
        = env.GetFastestServer (env.GetClosestServers env.GetServers) ∧
      Event.getClosestServers env.GetServers ∈ (runTest env g c).trace ∧
      Event.getFastestServer (env.GetClosestServers env.GetServers)
        ∈ (runTest env g c).trace ∧
      ∀ ev ∈ (runTest env g c).trace, ev.isFindServer = false ∧ ev.isGetLatency = false) := by
  obtain ⟨rest, htr, hrest⟩ := runTest_trace env g c
  have hrest1 : ∀ ev ∈ rest, ev.isFindServer = false ∧ ev.isGetLatency = false ∧
      ev.isGetClosestServers = false ∧ ev.isGetFastestServer = false := by
    intro ev hev
    have h := List.all_eq_true.mp hrest ev hev
    simpa [Event.isNotSelectionCall, and_assoc] using h
  constructor
  · intro hs
    have hlook : ∀ ev ∈ explicitLookup env g c,
        ev.isGetClosestServers = false ∧ ev.isGetFastestServer = false := by
      intro ev hev
      have h := List.all_eq_true.mp (explicitLookup_all env g c) ev hev
      simp only [Bool.and_eq_true, Bool.not_eq_true'] at h
      exact ⟨h.1.1.1.1, h.1.1.1.2⟩
    have hfind : Event.findServer c.server env.GetServers ∈ explicitLookup env g c := by
      simp [explicitLookup]
    rw [htr]
    cases hf : env.FindServer c.server env.GetServers with
    | error e =>
      rw [selectServer_find_error hs hf]
      refine ⟨fun ts h => by simp at h, by simp [hfind], ?_⟩
      intro ev hev
      rcases List.mem_append.mp hev with h | h
      · exact hlook ev h
      · exact (hrest1 ev h).2.2
    | ok found =>
      cases hl : env.GetLatency found with
      | error e =>
        rw [selectServer_latency_error hs hf hl]
        refine ⟨fun ts h => by simp at h, by simp [hfind], ?_⟩
        intro ev hev
        simp only [List.mem_append, List.mem_singleton] at hev
        rcases hev with (h | h) | h
        · exact hlook ev h
        · rw [h]; exact ⟨rfl, rfl⟩
        · exact (hrest1 ev h).2.2
      | ok l =>
        rw [selectServer_explicit_ok hs hf hl]
        refine ⟨fun ts h => ⟨found, l, rfl, hl, ?_⟩, by simp [hfind], ?_⟩
        · simp at h; exact h.symm
        · intro ev hev
          simp only [List.mem_append, List.mem_cons, List.mem_singleton,
            List.not_mem_nil, or_false] at hev
          rcases hev with (h | h | h) | h
          · exact hlook ev h
          · rw [h]; exact ⟨rfl, rfl⟩
          · rw [h]; exact ⟨rfl, rfl⟩
          · exact (hrest1 ev h).2.2
  · intro hs
    rw [htr, selectServer_automatic hs]
    refine ⟨rfl, by simp [automaticCalls], by simp [automaticCalls], ?_⟩
    intro ev hev
    rcases List.mem_append.mp hev with h | h
    · have h1 := List.all_eq_true.mp (automaticCalls_all env g) ev h
      simpa using h1
    · exact ⟨(hrest1 ev h).1, (hrest1 ev h).2.1⟩

/-! ## The claims -/

/-- C1: in reporting mode the result line of a full (non-ping) test is the
latency with two decimals, the separator, the integer download kbps, the
separator, the integer upload kbps and a newline, in that order, for every
latency, download figure, upload figure and separator. -/
theorem C1_report_line_fields (env : Env) (g : Globals) (c : Context)
    (es ms : List Event) (ts : Server) (d u : F64)
    (hsel : selectServer env g c = (es, .ok ts)) (hping : c.ping = false)
    (hrep : g.REPORT = true) (hm : measure env c ts = (ms, .ok (d, u))) :
    runTest env g c
      = ⟨es ++ (Event.printServerReport ts :: ms ++
            [Event.printf (fmtF ts.Latency ++ g.REPORTCHAR ++ fmtD (kbps env.impl d)
              ++ g.REPORTCHAR ++ fmtD (kbps env.impl u) ++ "\n")]),
          Outcome.returned⟩ := by
  rw [runTest_full hsel hping hm]
  simp [serverHeader, resultLine, reportLine, hrep]

/-- C1, run on concrete values. -/
theorem C1_report_line_fields_witness :
    runTest demoEnv demoReport explicitReport
      = ⟨(selectServer demoEnv demoReport explicitReport).1 ++
          (Event.printServerReport { srvA with Latency := f23_5 } ::
            [Event.downloadTest { srvA with Latency := f23_5 },
              Event.uploadTest { srvA with Latency := f23_5 }] ++
            [Event.printf "23.50|4350|5999\n"]),
          Outcome.returned⟩ :=
  C1_report_line_fields demoEnv demoReport explicitReport
    (selectServer demoEnv demoReport explicitReport).1
    [Event.downloadTest { srvA with Latency := f23_5 },
      Event.uploadTest { srvA with Latency := f23_5 }]
    { srvA with Latency := f23_5 } f4_35 f5_9999 rfl rfl rfl rfl

/-- C2 as written fails: for the float64 nearest to 4.35 (a value just below
4.35) the kbps field is 4350, above 1000 times the figure, so it is not the
integer k with k <= 1000*m < k+1 (that one is 4349). -/
theorem C2_kbps_counterexample :
    kbps amd64 f4_35 = 4350 ∧ f4_35.wf ∧
      ¬ (((kbps amd64 f4_35 : Int) : ℚ) ≤ 1000 * f4_35.toRat ∧
          1000 * f4_35.toRat < ((kbps amd64 f4_35 : Int) : ℚ) + 1) := by
  have hk : kbps amd64 f4_35 = 4350 := by decide
  refine ⟨hk, by decide, ?_⟩
  rw [hk]
  simp only [f4_35, F64.toRat]
  norm_num

/-- C2, amended: for every non-negative finite figure m the kbps field is the
float64 product m * 1000 (the exact product rounded to the nearest float64)
truncated toward zero: when that product is finite and fits `int`, the field is
the integer k with k <= fl(m*1000) < k+1.  Where the product needs no rounding
(1000 times the mantissa is n * 2^j with n below 2^53, and m is not below the
subnormal range) fl(m*1000) is 1000*m, so k <= 1000*m < k+1. -/
theorem C2_kbps_truncates_float_product (impl : GoImpl) (mant : Nat) (e : Int) (v : Int)
    (hv : (F64.mul (F64.finite false mant e) (F64.ofNat 1000)).trunc = some v)
    (hfit : v < 2 ^ (impl.intBits - 1)) :
    kbps impl (F64.finite false mant e) = v ∧
      (v : ℚ) ≤ (F64.mul (F64.finite false mant e) (F64.ofNat 1000)).toRat ∧
      (F64.mul (F64.finite false mant e) (F64.ofNat 1000)).toRat < (v : ℚ) + 1 ∧
      (∀ n j : Nat, mant * 1000 = n * 2 ^ j → n < 2 ^ 53 → -1074 ≤ e →
        (F64.mul (F64.finite false mant e) (F64.ofNat 1000)).toRat
          = 1000 * (F64.finite false mant e).toRat) := by
  have hmul : F64.mul (F64.finite false mant e) (F64.ofNat 1000)
      = F64.round false (mant * 1000) e := by
    simp [F64.mul, F64.ofNat]
  rw [hmul] at hv ⊢
  rcases round_false_cases (mant * 1000) e with hinf | ⟨m1, e1, hfin⟩
  · rw [hinf] at hv; simp [F64.trunc] at hv
  · obtain ⟨a, ha, hlo, hhi⟩ := trunc_floor m1 e1
    rw [hfin] at hv ⊢
    rw [ha] at hv
    have hva : (a : Int) = v := by simpa using hv
    have hval : (F64.finite false m1 e1).toRat = (m1 : ℚ) * (2 : ℚ) ^ e1 := by
      simp [F64.toRat]
    have hvq : (v : ℚ) = (a : ℚ) := by rw [← hva]; simp
    refine ⟨?_, ?_, ?_, ?_⟩
    · unfold kbps
      simp only [hmul, hfin, F64.toInt, ha]
      have h1 : -(2 : Int) ^ (impl.intBits - 1) ≤ (a : Int) := by
        have : (0 : Int) < 2 ^ (impl.intBits - 1) := by positivity
        omega
      rw [hva] at h1 ⊢
      simp [h1, hfit]
    · rw [hval, hvq]; exact hlo
    · rw [hval, hvq]; exact hhi
    · intro n j hnj hn he
      rcases round_exact (mant * 1000) n j e hnj hn he with hinf | ⟨m2, e2, hfin2, hex⟩
      · rw [hinf] at hfin; simp at hfin
      · rw [hfin] at hfin2
        simp only [F64.finite.injEq, true_and] at hfin2
        obtain ⟨h1, h2⟩ := hfin2
        subst h1 h2
        rw [hval, hex]
        simp [F64.toRat]
        ring

/-- C2, run on concrete values. -/
theorem C2_kbps_truncates_float_product_witness :
    (kbps amd64 f5_9999 = 5999 ∧
      ((5999 : Int) : ℚ) ≤ (F64.mul f5_9999 (F64.ofNat 1000)).toRat ∧
      (F64.mul f5_9999 (F64.ofNat 1000)).toRat < ((5999 : Int) : ℚ) + 1) ∧
    (kbps amd64 f6 = 6000 ∧
      (F64.mul f6 (F64.ofNat 1000)).toRat = 1000 * f6.toRat) :=
  ⟨⟨(C2_kbps_truncates_float_product amd64 6755286851065060 (-50) 5999
        (by decide) (by decide)).1,
      (C2_kbps_truncates_float_product amd64 6755286851065060 (-50) 5999
        (by decide) (by decide)).2.1,
      (C2_kbps_truncates_float_product amd64 6755286851065060 (-50) 5999
        (by decide) (by decide)).2.2.1⟩,
    (C2_kbps_truncates_float_product amd64 6755399441055744 (-50) 6000
        (by decide) (by decide)).1,
    (C2_kbps_truncates_float_product amd64 6755399441055744 (-50) 6000
        (by decide) (by decide)).2.2.2 375 54 (by norm_num) (by norm_num) (by norm_num)⟩

/-- C3: the server flag alone picks one of two exclusive selection modes.  With
a non-empty name the chosen server is the one FindServer(name, allServers)
returned (its Latency then set from GetLatency): whenever both calls return,
that server is chosen and handed on to the rest of the run, and when either
does not return no server is chosen; FindServer is called, and neither
GetClosestServers nor GetFastestServer is.  With the empty name the chosen
server is GetFastestServer(GetClosestServers(allServers)), handed on to the
rest of the run; both are called, and neither FindServer nor GetLatency is
called by `runTest`. -/
theorem C3_selection_modes (env : Env) (g : Globals) (c : Context) :
    (c.server ≠ "" →
      (∀ found l, env.FindServer c.server env.GetServers = .ok found →
        env.GetLatency found = .ok l →
        (selectServer env g c).2 = .ok { found with Latency := l } ∧
        runTest env g c
          = Run.after (explicitLookup env g c ++ [Event.getLatency found,
              Event.printf ("Selected server: "
                ++ env.showServer { found with Latency := l } ++ "\n")])
            (afterSelect env g c { found with Latency := l })) ∧
      (∀ e, env.FindServer c.server env.GetServers = .error e →
        (selectServer env g c).2 = .error e) ∧
      (∀ found e, env.FindServer c.server env.GetServers = .ok found →
        env.GetLatency found = .error e → (selectServer env g c).2 = .error e) ∧
      (∀ ts, (selectServer env g c).2 = .ok ts →
        ∃ found l, env.FindServer c.server env.GetServers = .ok found ∧
          env.GetLatency found = .ok l ∧ ts = { found with Latency := l }) ∧
      Event.findServer c.server env.GetServers ∈ (runTest env g c).trace ∧
      ∀ ev ∈ (runTest env g c).trace,
        ev.isGetClosestServers = false ∧ ev.isGetFastestServer = false) ∧
    (c.server = "" →
      (selectServer env g c).2
        = env.GetFastestServer (env.GetClosestServers env.GetServers) ∧
      (∀ ts, env.GetFastestServer (env.GetClosestServers env.GetServers) = .ok ts →
        runTest env g c = Run.after (automaticCalls env g) (afterSelect env g c ts)) ∧
      Event.getClosestServers env.GetServers ∈ (runTest env g c).trace ∧
      Event.getFastestServer (env.GetClosestServers env.GetServers)
        ∈ (runTest env g c).trace ∧
      ∀ ev ∈ (runTest env g c).trace, ev.isFindServer = false ∧ ev.isGetLatency = false) := by
  have hcalls := selection_calls env g c
  constructor
  · intro hs
    obtain ⟨hconv, hfind, hnone⟩ := hcalls.1 hs
    refine ⟨fun found l hf hl => ?_, fun e hf => ?_, fun found e hf hl => ?_,
      hconv, hfind, hnone⟩
    · have hsel := selectServer_explicit_ok (g := g) hs hf hl
      exact ⟨by rw [hsel], runTest_of_select hsel⟩
    · rw [selectServer_find_error hs hf]
    · rw [selectServer_latency_error hs hf hl]
  · intro hs
    obtain ⟨heq, hclosest, hfastest, hnone⟩ := hcalls.2 hs
    refine ⟨heq, fun ts hts => ?_, hclosest, hfastest, hnone⟩
    have hsel : selectServer env g c = (automaticCalls env g, .ok ts) := by
      rw [selectServer_automatic hs, hts]
    exact runTest_of_select hsel

/-- C3, run on concrete values: the explicit mode on the name 1, and the
automatic mode. -/
theorem C3_selection_modes_witness :
    ((selectServer demoEnv demoReport explicitReport).2 = .ok probedA ∧
      runTest demoEnv demoReport explicitReport
        = Run.after (explicitLookup demoEnv demoReport explicitReport ++
            [Event.getLatency srvA, Event.printf "Selected server: Alpha\n"])
          (afterSelect demoEnv demoReport explicitReport probedA)) ∧
    ((selectServer demoEnv demoGlobals demoContext).2
        = GetFastestServer demoProbe [srvA, srvB] ∧
      runTest demoEnv demoGlobals demoContext
        = Run.after (automaticCalls demoEnv demoGlobals)
            (afterSelect demoEnv demoGlobals demoContext probedB)) :=
  ⟨((C3_selection_modes demoEnv demoReport explicitReport).1 (by decide)).1
      srvA f23_5 rfl rfl,
    ((C3_selection_modes demoEnv demoGlobals demoContext).2 rfl).1,
    ((C3_selection_modes demoEnv demoGlobals demoContext).2 rfl).2.1 probedB rfl⟩

/-- C4: in both selection modes the server `runTest` hands on has a populated
Latency (the value the latency prober returned for it), and every later event
that prints or tests a server does so on that server.  In explicit mode the
Latency is exactly what GetLatency returned for the server FindServer found,
written before the selected server is printed and before any test. -/
theorem C4_selected_latency_populated (env : Env) (g : Globals) (c : Context)
    (es : List Event) (ts : Server)
    (hspec : env.GetFastestServer = GetFastestServer env.GetLatency)
    (hsel : selectServer env g c = (es, .ok ts)) :
    populated env ts ∧
      runTest env g c = Run.after es (afterSelect env g c ts) ∧
      (∀ ev ∈ (afterSelect env g c ts).trace, ∀ s, ev.subject = some s → s = ts) ∧
      (c.server ≠ "" →
        ∃ found, env.FindServer c.server env.GetServers = .ok found ∧
          env.GetLatency found = .ok ts.Latency ∧
          ts = { found with Latency := ts.Latency } ∧
          es = explicitLookup env g c ++ [Event.getLatency found,
            Event.printf ("Selected server: " ++ env.showServer ts ++ "\n")]) := by
  have hexp : c.server ≠ "" →
      ∃ found, env.FindServer c.server env.GetServers = .ok found ∧
        env.GetLatency found = .ok ts.Latency ∧
        ts = { found with Latency := ts.Latency } ∧
        es = explicitLookup env g c ++ [Event.getLatency found,
          Event.printf ("Selected server: " ++ env.showServer ts ++ "\n")] := by
    intro hs
    cases hf : env.FindServer c.server env.GetServers with
    | error e =>
      rw [selectServer_find_error hs hf] at hsel
      simp at hsel
    | ok found =>
      cases hl : env.GetLatency found with
      | error e =>
        rw [selectServer_latency_error hs hf hl] at hsel
        simp at hsel
      | ok l =>
        rw [selectServer_explicit_ok hs hf hl] at hsel
        simp only [Prod.mk.injEq, Except.ok.injEq] at hsel
        obtain ⟨h1, h2⟩ := hsel
        subst h2
        exact ⟨found, rfl, hl, rfl, h1.symm⟩
  refine ⟨?_, runTest_of_select hsel, afterSelect_subject env g c ts, hexp⟩
  by_cases hs : c.server = ""
  · rw [selectServer_automatic hs] at hsel
    simp only [Prod.mk.injEq] at hsel
    have h := hsel.2
    rw [hspec] at h
    obtain ⟨s0, _, hp, heq⟩ := GetFastestServer_probed _ _ _ h
    exact ⟨s0, hp, heq⟩
  · obtain ⟨found, _, hl, heq, _⟩ := hexp hs
    exact ⟨found, hl, heq⟩

/-- C4, run on concrete values. -/
theorem C4_selected_latency_populated_witness :
    populated demoEnv probedA ∧
      runTest demoEnv demoReport explicitReport
        = Run.after (selectServer demoEnv demoReport explicitReport).1
            (afterSelect demoEnv demoReport explicitReport probedA) :=
  ⟨(C4_selected_latency_populated demoEnv demoReport explicitReport
      (selectServer demoEnv demoReport explicitReport).1 probedA rfl rfl).1,
    (C4_selected_latency_populated demoEnv demoReport explicitReport
      (selectServer demoEnv demoReport explicitReport).1 probedA rfl rfl).2.1⟩

/-- C5: in explicit mode a name that matches no catalog entry makes the
selection fail with ServerNotFound: the run stops at the FindServer call, so no
latency is probed, no selected server or result line is printed and no
download or upload test is run. -/
theorem C5_unknown_server_stops (env : Env) (g : Globals) (c : Context)
    (matchName : String → Server → Bool)
    (hspec : env.FindServer = FindServer matchName) (hs : c.server ≠ "")
    (hno : ∀ s ∈ env.GetServers, matchName c.server s = false) :
    runTest env g c = ⟨explicitLookup env g c, Outcome.failed Err.ServerNotFound⟩ ∧
      ∀ ev ∈ (runTest env g c).trace,
        ev.isGetLatency = false ∧ ev.isPrintf = false ∧ ev.subject = none ∧
          ev.isDownloadTest = false ∧ ev.isUploadTest = false := by
  have hnone : env.GetServers.find? (matchName c.server) = none := by
    rw [List.find?_eq_none]
    intro s hmem
    simp [hno s hmem]
  have hf : env.FindServer c.server env.GetServers = .error Err.ServerNotFound := by
    rw [hspec]
    simp [FindServer, hnone]
  have hrun : runTest env g c = ⟨explicitLookup env g c, Outcome.failed Err.ServerNotFound⟩ := by
    simp [runTest, selectServer_find_error hs hf]
  refine ⟨hrun, ?_⟩
  rw [hrun]
  intro ev hev
  have h := List.all_eq_true.mp (explicitLookup_all env g c) ev hev
  simp only [Bool.and_eq_true, Bool.not_eq_true', Event.isQuiet, Option.isNone_iff_eq_none] at h
  exact ⟨h.1.1.2, h.1.2, h.2.2, h.2.1.1, h.2.1.2⟩

/-- C5, run on concrete values. -/
theorem C5_unknown_server_stops_witness :
    runTest demoEnv demoGlobals explicitAbsent
      = ⟨[Event.getConfig, Event.getServers, Event.findServer "7" [srvA, srvB]],
          Outcome.failed Err.ServerNotFound⟩ :=
  (C5_unknown_server_stops demoEnv demoGlobals explicitAbsent demoMatch rfl (by decide)
    (by decide)).1

/-- C6: the policy set from the algo flag is one of max and avg: for the algo
string max or avg the setting becomes exactly that string; for the empty string
it is left unchanged; for every other string the action prints the invalid
algorithm message and exits with status 1, with no server listing, no test and
the setting unmodified.  So a setting that was max or avg stays max or avg. -/
theorem C6_algo_flag_sets_policy (env : Globals → Env) (g : Globals) (c : Context) :
    ((c.algo = "max" ∨ c.algo = "avg") → (action env g c).globals.ALGOTYPE = c.algo) ∧
    (c.algo = "" → (action env g c).globals.ALGOTYPE = g.ALGOTYPE) ∧
    (c.algo ≠ "" → c.algo ≠ "max" → c.algo ≠ "avg" →
      (action env g c).run
          = ⟨[Event.printf ("** Invalid algorithm \x27" ++ c.algo ++ "\x27\n")],
              Outcome.exit 1⟩ ∧
        (action env g c).globals.ALGOTYPE = g.ALGOTYPE) ∧
    ((g.ALGOTYPE = "max" ∨ g.ALGOTYPE = "avg") →
      (action env g c).globals.ALGOTYPE = "max" ∨ (action env g c).globals.ALGOTYPE = "avg") := by
  have hmax : c.algo = "max" → (action env g c).globals.ALGOTYPE = "max" := by
    intro h
    simp [action, h, listOrTest_globals, setNumbers_algo]
  have havg : c.algo = "avg" → (action env g c).globals.ALGOTYPE = "avg" := by
    intro h
    simp [action, h, listOrTest_globals, setNumbers_algo]
  have hemp : c.algo = "" → (action env g c).globals.ALGOTYPE = g.ALGOTYPE := by
    intro h
    simp [action, h, listOrTest_globals, setNumbers_algo, setSwitches_algo]
  have hbad : c.algo ≠ "" → c.algo ≠ "max" → c.algo ≠ "avg" →
      (action env g c).run
          = ⟨[Event.printf ("** Invalid algorithm \x27" ++ c.algo ++ "\x27\n")],
              Outcome.exit 1⟩ ∧
        (action env g c).globals.ALGOTYPE = g.ALGOTYPE := by
    intro h0 h1 h2
    simp [action, h0, h1, h2, setSwitches_algo]
  refine ⟨?_, hemp, hbad, ?_⟩
  · rintro (h | h)
    · rw [hmax h, h]
    · rw [havg h, h]
  · intro hg
    by_cases h0 : c.algo = ""
    · rw [hemp h0]; exact hg
    · by_cases h1 : c.algo = "max"
      · exact Or.inl (hmax h1)
      · by_cases h2 : c.algo = "avg"
        · exact Or.inr (havg h2)
        · rw [(hbad h0 h1 h2).2]; exact hg

/-- C6, run on concrete values. -/
theorem C6_algo_flag_sets_policy_witness :
    (action (fun _ => demoEnv) demoGlobals avgAlgo).globals.ALGOTYPE = "avg" ∧
      (action (fun _ => demoEnv) demoGlobals badAlgo).run
        = ⟨[Event.printf "** Invalid algorithm \x27min\x27\n"], Outcome.exit 1⟩ ∧
      (action (fun _ => demoEnv) demoGlobals badAlgo).globals.ALGOTYPE = "max" :=
  ⟨(C6_algo_flag_sets_policy (fun _ => demoEnv) demoGlobals avgAlgo).1 (Or.inr rfl),
    (C6_algo_flag_sets_policy (fun _ => demoEnv) demoGlobals badAlgo).2.2.1
      (by decide) (by decide) (by decide)⟩

/-- C7: in a full (non-ping) run a skipped direction is never measured and is
reported as zero: with `downloadonly` no UploadTest is called and the upload
figure is the zero value; with `uploadonly` and no `downloadonly` no
DownloadTest is called and the download figure is the zero value; with neither,
DownloadTest then UploadTest run on the selected server and the line reports
exactly the values they returned.  The zero value prints as 0.00, and as 0 kbps. -/
theorem C7_skipped_direction_is_zero (env : Env) (g : Globals) (c : Context)
    (es : List Event) (ts : Server)
    (hsel : selectServer env g c = (es, .ok ts)) (hping : c.ping = false) :
    (c.downloadonly = true →
      (∀ ev ∈ (runTest env g c).trace, ev.isUploadTest = false) ∧
      ∀ d, env.DownloadTest ts = .ok d →
        runTest env g c
          = ⟨es ++ [serverHeader g ts, Event.downloadTest ts,
                Event.printf (resultLine env g ts d F64.zero)], Outcome.returned⟩) ∧
    (c.downloadonly = false → c.uploadonly = true →
      (∀ ev ∈ (runTest env g c).trace, ev.isDownloadTest = false) ∧
      ∀ u, env.UploadTest ts = .ok u →
        runTest env g c
          = ⟨es ++ [serverHeader g ts, Event.uploadTest ts,
                Event.printf (resultLine env g ts F64.zero u)], Outcome.returned⟩) ∧
    (c.downloadonly = false → c.uploadonly = false →
      ∀ d u, env.DownloadTest ts = .ok d → env.UploadTest ts = .ok u →
        runTest env g c
          = ⟨es ++ [serverHeader g ts, Event.downloadTest ts, Event.uploadTest ts,
                Event.printf (resultLine env g ts d u)], Outcome.returned⟩) ∧
    fmtF F64.zero = "0.00" ∧ kbps env.impl F64.zero = 0 := by
  have hes := selectServer_events env g c
  rw [hsel] at hes
  have hhd := serverHeader_kind g ts
  refine ⟨fun hdo => ⟨?_, ?_⟩, fun hdo huo => ⟨?_, ?_⟩, fun hdo huo d u hd hu => ?_,
    by decide, kbps_zero env.impl⟩
  · intro ev hev
    rcases runTest_trace_mem hsel ev hev with h | h | ⟨_, h⟩ | ⟨t, h⟩
    · exact (hes ev h).2.1
    · rw [h]; exact hhd.2.1
    · have hm : ∀ x ∈ (measure env c ts).1, x = Event.downloadTest ts := by
        intro x hx
        unfold measure at hx
        cases hd : env.DownloadTest ts <;> simp [hdo, hd] at hx <;> exact hx
      rw [hm ev h]; rfl
    · rw [h]; rfl
  · intro d hd
    have hm : measure env c ts = ([Event.downloadTest ts], .ok (d, F64.zero)) := by
      simp [measure, hdo, hd]
    rw [runTest_full hsel hping hm]; simp
  · intro ev hev
    rcases runTest_trace_mem hsel ev hev with h | h | ⟨_, h⟩ | ⟨t, h⟩
    · exact (hes ev h).1
    · rw [h]; exact hhd.1
    · have hm : ∀ x ∈ (measure env c ts).1, x = Event.uploadTest ts := by
        intro x hx
        unfold measure at hx
        cases hu : env.UploadTest ts <;> simp [hdo, huo, hu] at hx <;> exact hx
      rw [hm ev h]; rfl
    · rw [h]; rfl
  · intro u hu
    have hm : measure env c ts = ([Event.uploadTest ts], .ok (F64.zero, u)) := by
      simp [measure, hdo, huo, hu]
    rw [runTest_full hsel hping hm]; simp
  · have hm : measure env c ts
        = ([Event.downloadTest ts, Event.uploadTest ts], .ok (d, u)) := by
      simp [measure, hdo, huo, hd, hu]
    rw [runTest_full hsel hping hm]; simp

/-- C7, run on concrete values. -/
theorem C7_skipped_direction_is_zero_witness :
    runTest demoEnv demoGlobals demoContext
      = ⟨(selectServer demoEnv demoGlobals demoContext).1 ++
          [Event.printServer probedB, Event.downloadTest probedB, Event.uploadTest probedB,
            Event.printf
              "Ping (Lowest): 9.00 ms | Download (Max): 4.35 Mbps | Upload (Max): 6.00 Mbps\n"],
          Outcome.returned⟩ :=
  (C7_skipped_direction_is_zero demoEnv demoGlobals demoContext
    (selectServer demoEnv demoGlobals demoContext).1 probedB rfl rfl).2.2.1
    rfl rfl f4_35 f5_9999 rfl rfl

/-- C8 as written fails: with `uploadonly` and `downloadonly` both set in a full
run, DownloadTest is called on the selected server and UploadTest is not. -/
theorem C8_uploadonly_counterexample :
    bothOnly.uploadonly = true ∧ bothOnly.ping = false ∧
      selectServer demoEnv demoGlobals bothOnly
        = ((selectServer demoEnv demoGlobals bothOnly).1, .ok probedB) ∧
      (runTest demoEnv demoGlobals bothOnly).trace.contains (Event.downloadTest probedB) = true ∧
      (runTest demoEnv demoGlobals bothOnly).trace.any Event.isUploadTest = false :=
  ⟨rfl, rfl, rfl, by decide, by decide⟩

/-- C8, amended: whenever `uploadonly` is set and `downloadonly` is not, a full
(non-ping) run performs only the upload test: UploadTest is called on the
selected server and DownloadTest is not called, whatever the other flags. -/
theorem C8_uploadonly_without_downloadonly (env : Env) (g : Globals) (c : Context)
    (es : List Event) (ts : Server)
    (hsel : selectServer env g c = (es, .ok ts)) (hping : c.ping = false)
    (huo : c.uploadonly = true) (hdo : c.downloadonly = false) :
    Event.uploadTest ts ∈ (runTest env g c).trace ∧
      ∀ ev ∈ (runTest env g c).trace, ev.isDownloadTest = false := by
  have hes := selectServer_events env g c
  rw [hsel] at hes
  have hmev : ∀ x ∈ (measure env c ts).1, x = Event.uploadTest ts := by
    intro x hx
    unfold measure at hx
    cases hu : env.UploadTest ts <;> simp [hdo, huo, hu] at hx <;> exact hx
  constructor
  · rw [runTest_of_select hsel]
    unfold afterSelect Run.after measure
    cases hu : env.UploadTest ts <;> simp [hping, hdo, huo, hu]
  · intro ev hev
    rcases runTest_trace_mem hsel ev hev with h | h | ⟨_, h⟩ | ⟨t, h⟩
    · exact (hes ev h).1
    · rw [h]; exact (serverHeader_kind g ts).1
    · rw [hmev ev h]; rfl
    · rw [h]; rfl

/-- C8, run on concrete values. -/
theorem C8_uploadonly_without_downloadonly_witness :
    Event.uploadTest probedB ∈ (runTest demoEnv demoGlobals uploadOnly).trace ∧
      ∀ ev ∈ (runTest demoEnv demoGlobals uploadOnly).trace, ev.isDownloadTest = false :=
  C8_uploadonly_without_downloadonly demoEnv demoGlobals uploadOnly
    (selectServer demoEnv demoGlobals uploadOnly).1 probedB rfl rfl rfl rfl

/-- C9: every human-readable result line carries the labels of the one policy:
under `max` the latency is labelled Lowest in the ping line (reporting and
plain) and in the full line, where download and upload are both labelled Max;
under `avg` all of them are labelled Avg. -/
theorem C9_labels_follow_policy (env : Env) (g : Globals) (c : Context)
    (es : List Event) (ts : Server) (hsel : selectServer env g c = (es, .ok ts)) :
    (g.ALGOTYPE = "max" →
      (c.ping = true → c.report = true → runTest env g c
        = ⟨es ++ [serverHeader g ts, Event.printf (fmtF ts.Latency ++ " (Lowest)\n")],
            Outcome.exit 0⟩) ∧
      (c.ping = true → c.report = false → runTest env g c
        = ⟨es ++ [serverHeader g ts,
              Event.printf ("Ping (Lowest): " ++ fmtF ts.Latency ++ " ms\n")],
            Outcome.exit 0⟩) ∧
      (c.ping = false → g.REPORT = false → ∀ ms d u, measure env c ts = (ms, .ok (d, u)) →
        runTest env g c
          = ⟨es ++ (Event.printServer ts :: ms ++
                [Event.printf ("Ping (Lowest): " ++ fmtF ts.Latency
                  ++ " ms | Download (Max): " ++ fmtF d
                  ++ " Mbps | Upload (Max): " ++ fmtF u ++ " Mbps\n")]),
              Outcome.returned⟩)) ∧
    (g.ALGOTYPE = "avg" →
      (c.ping = true → c.report = true → runTest env g c
        = ⟨es ++ [serverHeader g ts, Event.printf (fmtF ts.Latency ++ " (Avg)\n")],
            Outcome.exit 0⟩) ∧
      (c.ping = true → c.report = false → runTest env g c
        = ⟨es ++ [serverHeader g ts,
              Event.printf ("Ping (Avg): " ++ fmtF ts.Latency ++ " ms\n")],
            Outcome.exit 0⟩) ∧
      (c.ping = false → g.REPORT = false → ∀ ms d u, measure env c ts = (ms, .ok (d, u)) →
        runTest env g c
          = ⟨es ++ (Event.printServer ts :: ms ++
                [Event.printf ("Ping (Avg): " ++ fmtF ts.Latency
                  ++ " ms | Download (Avg): " ++ fmtF d
                  ++ " Mbps | Upload (Avg): " ++ fmtF u ++ " Mbps\n")]),
              Outcome.returned⟩)) := by
  refine ⟨fun hp => ⟨fun hping hr => ?_, fun hping hr => ?_, fun hping hr ms d u hm => ?_⟩,
    fun hp => ⟨fun hping hr => ?_, fun hping hr => ?_, fun hping hr ms d u hm => ?_⟩⟩
  · rw [runTest_ping hsel hping]; simp [pingLine, hp, hr]
  · rw [runTest_ping hsel hping]; simp [pingLine, hp, hr]
  · rw [runTest_full hsel hping hm]; simp [resultLine, humanLine, serverHeader, hp, hr]
  · rw [runTest_ping hsel hping]; simp [pingLine, hp, hr]
  · rw [runTest_ping hsel hping]; simp [pingLine, hp, hr]
  · rw [runTest_full hsel hping hm]; simp [resultLine, humanLine, serverHeader, hp, hr]

/-- C9, run on concrete values. -/
theorem C9_labels_follow_policy_witness :
    runTest demoEnv demoAvg demoContext
      = ⟨(selectServer demoEnv demoAvg demoContext).1 ++
          (Event.printServer probedB ::
            [Event.downloadTest probedB, Event.uploadTest probedB] ++
            [Event.printf
              "Ping (Avg): 9.00 ms | Download (Avg): 4.35 Mbps | Upload (Avg): 6.00 Mbps\n"]),
          Outcome.returned⟩ :=
  (C9_labels_follow_policy demoEnv demoAvg demoContext
    (selectServer demoEnv demoAvg demoContext).1 probedB rfl).2 rfl |>.2.2 rfl rfl
    [Event.downloadTest probedB, Event.uploadTest probedB] f4_35 f5_9999 rfl

/-- C10: with the ping flag, whatever `report`, `downloadonly` and `uploadonly`
say, once a server is selected `runTest` prints the server header and exactly
one latency line, calls neither DownloadTest nor UploadTest, and exits with
status 0. -/
theorem C10_ping_only_measures_nothing (env : Env) (g : Globals) (c : Context)
    (es : List Event) (ts : Server)
    (hsel : selectServer env g c = (es, .ok ts)) (hping : c.ping = true) :
    runTest env g c
        = ⟨es ++ [serverHeader g ts, Event.printf (pingLine g c ts)], Outcome.exit 0⟩ ∧
      (∀ ev ∈ (runTest env g c).trace,
        ev.isDownloadTest = false ∧ ev.isUploadTest = false) ∧
      ∃ label unit, pingLine g c ts = label ++ fmtF ts.Latency ++ unit := by
  have hes := selectServer_events env g c
  rw [hsel] at hes
  refine ⟨runTest_ping hsel hping, ?_, ?_⟩
  · intro ev hev
    rcases runTest_trace_mem hsel ev hev with h | h | ⟨hp, _⟩ | ⟨t, h⟩
    · exact ⟨(hes ev h).1, (hes ev h).2.1⟩
    · rw [h]; exact ⟨(serverHeader_kind g ts).1, (serverHeader_kind g ts).2.1⟩
    · rw [hping] at hp; exact absurd hp (by decide)
    · rw [h]; exact ⟨rfl, rfl⟩
  · unfold pingLine
    by_cases hr : c.report = true <;> by_cases hp : g.ALGOTYPE = "max" <;> simp only [hr, hp]
    · exact ⟨"", " (Lowest)\n", by simp⟩
    · exact ⟨"", " (Avg)\n", by simp⟩
    · exact ⟨"Ping (Lowest): ", " ms\n", by simp⟩
    · exact ⟨"Ping (Avg): ", " ms\n", by simp⟩

/-- C10, run on concrete values. -/
theorem C10_ping_only_measures_nothing_witness :
    runTest demoEnv demoGlobals pingOnly
      = ⟨(selectServer demoEnv demoGlobals pingOnly).1 ++
          [Event.printServer probedB, Event.printf "Ping (Lowest): 9.00 ms\n"],
          Outcome.exit 0⟩ :=
  (C10_ping_only_measures_nothing demoEnv demoGlobals pingOnly
    (selectServer demoEnv demoGlobals pingOnly).1 probedB rfl rfl).1

end Speedtest
